import Mathlib

/-!
Verification development for the quiz-solving orchestration engine
(repository `quiz_tds`).  The Python sources under `src/` are shallowly
embedded below: pure helper functions become Lean functions over
`List Char` / `String`, the retry loops become explicit traces (result,
number of attempts, list of sleep delays), and Python exceptions become
`Except` values.  Floating-point delay arithmetic is modelled over `ℚ`
(the delay formulas only multiply small powers of two, where float and
rational arithmetic agree).
-/

/-! ## Generic string helpers (Python `in`, `.lower()`, `.strip()`) -/

/-- Python's substring test `sub in s`, over char lists. -/
def hasSub (sub : List Char) : List Char → Bool
  | [] => sub.isEmpty
  | c :: t => sub.isPrefixOf (c :: t) || hasSub sub t

/-- Python `str.lower` (ASCII; every string inspected by the code is ASCII). -/
def lowerL (cs : List Char) : List Char := cs.map Char.toLower

/-- Characters stripped by Python `str.strip()` (default whitespace). -/
def isPySpace (c : Char) : Bool :=
  c = ' ' || c = '\t' || c = '\n' || c = '\r' || c = Char.ofNat 11 || c = Char.ofNat 12

/-- Python `str.strip()` over char lists. -/
def pyStrip (cs : List Char) : List Char :=
  ((cs.dropWhile isPySpace).reverse.dropWhile isPySpace).reverse

/-- Substring test on `String`s (Python `sub in s`). -/
def strHasSub (s sub : String) : Bool := hasSub sub.toList s.toList

/-! ## `src/error_handler.py`: categories, classification, retry policy -/

/-- `ErrorCategory` from `src/error_handler.py`. -/
inductive ErrorCategory where
  | authentication
  | validation
  | timeout
  | browser
  | network
  | llm_api
  | data_processing
  | task_execution
  | unknown
deriving DecidableEq

/-- A raised Python exception, as the classifier sees it: an optional
pre-tagged category (`QuizSystemError.category`), the exception type name
(`type(error).__name__`) and the message (`str(error)`). -/
structure PyError where
  quizCategory : Option ErrorCategory
  typeName : String
  message : String
deriving DecidableEq

/-- `ErrorHandler.__init__` configuration (delays as exact rationals). -/
structure ErrorHandlerCfg where
  max_retries : Nat
  base_delay : ℚ
  max_delay : ℚ
  exponential_base : ℚ
deriving DecidableEq

/-- The module-level `error_handler = ErrorHandler()` instance
(`max_retries=3, base_delay=1.0, max_delay=30.0, exponential_base=2.0`). -/
def defaultErrorHandler : ErrorHandlerCfg := ⟨3, 1, 30, 2⟩

/-- `ErrorHandler.calculate_delay`:
`delay = base_delay * exponential_base ** attempt; return min(delay, max_delay)`. -/
def calculate_delay (h : ErrorHandlerCfg) (attempt : Nat) : ℚ :=
  let delay := h.base_delay * h.exponential_base ^ attempt
  min delay h.max_delay

/-- `ErrorHandler.classify_error`.  The keyword checks follow the source
order exactly; `error_msg` is the lower-cased message and the type-name
checks lower-case `type(error).__name__`. -/
def classify_error (e : PyError) : ErrorCategory :=
  match e.quizCategory with
  | some c => c
  | none =>
    let ty := lowerL e.typeName.toList
    let msg := lowerL e.message.toList
    if hasSub "403".toList msg || hasSub "forbidden".toList msg
        || hasSub "unauthorized".toList msg then .authentication
    else if hasSub "400".toList msg || hasSub "validation".toList msg
        || hasSub "invalid".toList msg then .validation
    else if hasSub "timeout".toList ty || hasSub "timeout".toList msg then .timeout
    else if hasSub "playwright".toList ty || hasSub "browser".toList msg then .browser
    else if hasSub "http".toList ty || hasSub "connection".toList ty
        || hasSub "network".toList ty then .network
    else if hasSub "openai".toList ty || hasSub "ratelimit".toList ty
        || hasSub "api".toList ty then .llm_api
    else if hasSub "parse".toList ty || hasSub "decode".toList ty
        || hasSub "json".toList ty || hasSub "csv".toList ty
        || hasSub "pdf".toList ty then .data_processing
    else .unknown

/-- `ErrorHandler.is_retryable` (category already classified): auth and
validation are non-retryable; the six listed categories are retryable;
everything else (i.e. `unknown`) falls through to `False`. -/
def is_retryable (c : ErrorCategory) : Bool :=
  if c = .authentication || c = .validation then false
  else c = .timeout || c = .browser || c = .network || c = .llm_api
    || c = .data_processing || c = .task_execution

/-- Observable trace of one `ErrorHandler.with_retry` run: the final
outcome (returned value or re-raised error), how many times the wrapped
operation was invoked, and the sequence of backoff sleeps performed. -/
structure RetryTrace (α : Type) where
  outcome : Except PyError α
  attempts : Nat
  delays : List ℚ

/-- Loop body of `ErrorHandler.with_retry`.  `op n` is the outcome of the
wrapped operation on its `n`-th invocation (0-indexed `attempt`).
`retryOn` models the optional `retry_on` allow-list as a predicate.
`fuel` only bounds the recursion; `with_retry` supplies `max_retries`,
which is exactly the number of recursive steps the loop can take, so the
fuel-exhausted branch is unreachable. -/
def withRetryAux {α : Type} (h : ErrorHandlerCfg) (op : Nat → Except PyError α)
    (max_retries : Nat) (retryOn : Option (PyError → Bool)) :
    Nat → Nat → RetryTrace α
  | attempt, fuel =>
    match op attempt with
    | .ok v => ⟨.ok v, 1, []⟩
    | .error e =>
      let category := classify_error e
      if (match retryOn with | some p => !(p e) | none => false) then
        ⟨.error e, 1, []⟩
      else if !(is_retryable category) then
        ⟨.error e, 1, []⟩
      else if max_retries ≤ attempt then
        ⟨.error e, 1, []⟩
      else
        match fuel with
        | 0 => ⟨.error e, 1, []⟩
        | fuel' + 1 =>
          let d := calculate_delay h attempt
          let rest := withRetryAux h op max_retries retryOn (attempt + 1) fuel'
          ⟨rest.outcome, rest.attempts + 1, d :: rest.delays⟩

/-- `ErrorHandler.with_retry(func, max_retries=..., retry_on=...)`:
runs the loop from `attempt = 0`. -/
def with_retry {α : Type} (h : ErrorHandlerCfg) (op : Nat → Except PyError α)
    (max_retries : Nat) (retryOn : Option (PyError → Bool)) : RetryTrace α :=
  withRetryAux h op max_retries retryOn 0 max_retries

/-! ## Ad hoc retry delays in `answer_submitter.py` and `llm_agent.py` -/

/-- `AnswerSubmitter._retry_submission`: called with the current
`retry_count`, it increments it and sleeps
`min(2 ** retry_count, 10)` seconds. -/
def submitter_retry_delay (retry_count : Nat) : ℚ :=
  min ((2 : ℚ) ^ (retry_count + 1)) 10

/-- `LLMAgent._call_llm_with_retry`: on a `RateLimitError`/`APIError` at
0-indexed `attempt`, it sleeps `2 ** attempt` seconds (no cap). -/
def llm_retry_delay (attempt : Nat) : ℚ := (2 : ℚ) ^ attempt

/-! ## `src/answer_submitter.py`: `submit_answer` / `_retry_submission` -/

/-- `SubmitResponse` (`models.py`): the parsed submission verdict. -/
structure SubmitResponse where
  correct : Bool
  reason : Option String
  url : Option String
deriving DecidableEq

/-- What one HTTP POST attempt of `submit_answer` observes:
a 2xx response with a body that parses into `SubmitResponse` (`ok`),
a 4xx/5xx response (`httpError`, raising `httpx.HTTPStatusError`),
a network-level failure (`requestError`, raising `httpx.RequestError`),
a 2xx response whose body is valid JSON but fails pydantic validation of
`SubmitResponse` (`parseError`, raising pydantic `ValidationError`),
or a 2xx response whose body `response.json()` / `SubmitResponse(**…)`
fails on with a non-pydantic exception — `json.JSONDecodeError` for an
invalid-JSON body, `TypeError` for non-object JSON (`bodyError`). -/
inductive SubmitAttempt where
  | ok (r : SubmitResponse)
  | httpError (status : Nat)
  | requestError
  | parseError
  | bodyError
deriving DecidableEq

/-- Errors `submit_answer` can raise: `NetworkError` (carrying the HTTP
status for an `HTTPStatusError`, none for a `RequestError`); the
`QuizValidationError` raised when the body is JSON but pydantic
validation of `SubmitResponse` fails; or the original non-pydantic body
exception (`json.JSONDecodeError` / `TypeError`), which only the generic
`except Exception:` handler catches and re-raises unchanged
(`bodyException`) — no `QuizValidationError` is raised on that path. -/
inductive SubmitError where
  | network (status : Option Nat)
  | validation
  | bodyException
deriving DecidableEq

/-- Observable trace of one `submit_answer` call tree: outcome, number of
POST attempts, and the `_retry_submission` sleeps in order. -/
structure SubmitTrace where
  outcome : Except SubmitError SubmitResponse
  attempts : Nat
  delays : List ℚ

/-- `AnswerSubmitter.submit_answer` with `_retry_submission`:
`att rc` is what the POST at `retry_count = rc` observes.
5xx responses retry while `retry_count < max_retries` (sleeping
`min(2 ** (rc+1), 10)` via `_retry_submission`), as do request errors;
4xx responses and body-validation failures raise immediately.
`fuel` (the first `Nat`) bounds the recursion; `submit_answer` passes
`max_retries`, so the fuel-exhausted arm — which raises where the code
would recurse — is unreachable. -/
def submitAnswerAux (att : Nat → SubmitAttempt) (max_retries : Nat) :
    Nat → Nat → SubmitTrace
  | 0, rc =>
    (match att rc with
     | .ok r => ⟨.ok r, 1, []⟩
     | .httpError s => ⟨.error (.network (some s)), 1, []⟩
     | .requestError => ⟨.error (.network none), 1, []⟩
     | .parseError => ⟨.error .validation, 1, []⟩
     | .bodyError => ⟨.error .bodyException, 1, []⟩)
  | fuel + 1, rc =>
    match att rc with
    | .ok r => ⟨.ok r, 1, []⟩
    | .httpError s =>
      if 500 ≤ s then
        if rc < max_retries then
          let rest := submitAnswerAux att max_retries fuel (rc + 1)
          ⟨rest.outcome, rest.attempts + 1, submitter_retry_delay rc :: rest.delays⟩
        else ⟨.error (.network (some s)), 1, []⟩
      else ⟨.error (.network (some s)), 1, []⟩
    | .requestError =>
      if rc < max_retries then
        let rest := submitAnswerAux att max_retries fuel (rc + 1)
        ⟨rest.outcome, rest.attempts + 1, submitter_retry_delay rc :: rest.delays⟩
      else ⟨.error (.network none), 1, []⟩
    | .parseError => ⟨.error .validation, 1, []⟩
    | .bodyError => ⟨.error .bodyException, 1, []⟩

/-- `AnswerSubmitter.submit_answer(...)` entered at `retry_count = 0`. -/
def submit_answer (att : Nat → SubmitAttempt) (max_retries : Nat) : SubmitTrace :=
  submitAnswerAux att max_retries max_retries 0

/-! ## `src/quiz_orchestrator.py`: sequence loop and skip heuristic -/

/-- `QuizResult` (`models.py`), restricted to the fields the sequence
loop computes deterministically (wall-clock `total_time` is not modelled). -/
structure QuizResultM where
  success : Bool
  quizzes_solved : Nat
  final_status : String
deriving DecidableEq

/-- The `while current_url:` loop of
`QuizOrchestrator.solve_quiz_sequence`, with `_solve_single_quiz`
abstracted as an oracle `solveQuiz : url → next url option` (the claim
scenario has every quiz solve and submit successfully; exceptions and the
deadline are handled outside this loop).  A url already in `visited_urls`
breaks the loop, which then falls through to the success return
(`success=True, final_status="completed"`).  `fuel` bounds the loop; a
distinguished status marks exhaustion so no theorem can hold vacuously
through it. -/
def solveSeqGo (solveQuiz : String → Option String) :
    Nat → List String → Option String → Nat → QuizResultM
  | _, _, none, solved => ⟨true, solved, "completed"⟩
  | 0, _, some _, solved => ⟨false, solved, "fuel_exhausted"⟩
  | fuel + 1, visited, some url, solved =>
    if url ∈ visited then ⟨true, solved, "completed"⟩
    else solveSeqGo solveQuiz fuel (visited ++ [url]) (solveQuiz url) (solved + 1)

/-- `solve_quiz_sequence(email, secret, initial_url)`: loop from the
initial url with no visited urls and zero quizzes solved. -/
def solve_quiz_sequence (solveQuiz : String → Option String) (fuel : Nat)
    (initial_url : String) : QuizResultM :=
  solveSeqGo solveQuiz fuel [] (some initial_url) 0

/-- `QuizOrchestrator._should_skip_to_next(retry_count, remaining_time)`. -/
def should_skip_to_next (retry_count : Nat) (remaining_time : ℚ) : Bool :=
  if remaining_time < 30 ∧ 1 ≤ retry_count then true
  else if remaining_time < 60 ∧ 2 ≤ retry_count then true
  else false

/-- The three ways `_solve_single_quiz` can proceed after an incorrect
verdict. -/
inductive QuizDecision where
  | skipTo (url : String)
  | retrySame
  | failSeq
deriving DecidableEq

/-- The branch of `QuizOrchestrator._solve_single_quiz` taken after an
incorrect verdict (`submit_response.correct == False`): skip to
`submit_response.url` when present and `retry_count >= max_retries_per_quiz`,
else skip when `_should_skip_to_next` fires, else increment `retry_count`
and retry while the new count stays within the cap, else raise
(terminal failure for the sequence). -/
def incorrect_verdict_decision (next_url : Option String)
    (retry_count max_retries_per_quiz : Nat) (remaining_time : ℚ) : QuizDecision :=
  match next_url with
  | some u =>
    if max_retries_per_quiz ≤ retry_count then .skipTo u
    else if should_skip_to_next retry_count remaining_time then .skipTo u
    else .retrySame
  | none =>
    if retry_count + 1 ≤ max_retries_per_quiz then .retrySame else .failSeq

/-! ## Base64 (`base64.b64encode` / `b64decode`), as used by `task_parser.py` -/

/-- Standard base64 alphabet: sextet value to character. -/
def sextetToChar (n : Nat) : Char :=
  if n < 26 then Char.ofNat (65 + n)
  else if n < 52 then Char.ofNat (97 + (n - 26))
  else if n < 62 then Char.ofNat (48 + (n - 52))
  else if n = 62 then '+'
  else '/'

/-- Standard base64 alphabet: character to sextet value. -/
def charToSextet (c : Char) : Option Nat :=
  if 65 ≤ c.toNat ∧ c.toNat ≤ 90 then some (c.toNat - 65)
  else if 97 ≤ c.toNat ∧ c.toNat ≤ 122 then some (c.toNat - 97 + 26)
  else if 48 ≤ c.toNat ∧ c.toNat ≤ 57 then some (c.toNat - 48 + 52)
  else if c = '+' then some 62
  else if c = '/' then some 63
  else none

/-- Is `c` in `[A-Za-z0-9+/]` (the regex char class used by the parser)? -/
def isB64Char (c : Char) : Bool := (charToSextet c).isSome

/-- `base64.b64encode` over bytes (each `< 256`): 3 bytes to 4 chars,
with `=` padding for a 1- or 2-byte tail. -/
def encode64 : List Nat → List Char
  | a :: b :: c :: rest =>
    sextetToChar (a / 4) :: sextetToChar ((a % 4) * 16 + b / 16) ::
    sextetToChar ((b % 16) * 4 + c / 64) :: sextetToChar (c % 64) :: encode64 rest
  | [a] => [sextetToChar (a / 4), sextetToChar ((a % 4) * 16), '=', '=']
  | [a, b] => [sextetToChar (a / 4), sextetToChar ((a % 4) * 16 + b / 16), sextetToChar ((b % 16) * 4), '=']
  | [] => []

/-- `base64.b64decode(s, validate=True)`: groups of 4 characters, `=`
only as final padding, length a multiple of 4; low bits hidden by the
padding are discarded exactly as CPython does.  (`_decode_base64` calls
`b64decode` without `validate`, but only on candidates that already
passed the strict `_is_base64` check, where the two agree.) -/
def decode64 : List Char → Option (List Nat)
  | [] => some []
  | c1 :: c2 :: c3 :: c4 :: rest =>
    match charToSextet c1, charToSextet c2 with
    | some s1, some s2 =>
      if c3 = '=' then
        if c4 = '=' ∧ rest = [] then some [s1 * 4 + s2 / 16] else none
      else
        match charToSextet c3 with
        | some s3 =>
          if c4 = '=' then
            if rest = [] then some [s1 * 4 + s2 / 16, (s2 % 16) * 16 + s3 / 4] else none
          else
            match charToSextet c4 with
            | some s4 =>
              (decode64 rest).map (fun bs =>
                (s1 * 4 + s2 / 16) :: ((s2 % 16) * 16 + s3 / 4) :: ((s3 % 4) * 64 + s4) :: bs)
            | none => none
        | none => none
    | _, _ => none
  | _ => none

/-! ## `src/task_parser.py` -/

/-- `AnswerFormat` (`models.py`). -/
inductive AnswerFormat where
  | boolean
  | number
  | string
  | base64
  | json
deriving DecidableEq

/-- The regex `^[A-Za-z0-9+/]*={0,2}$` from `_is_base64`: a run of
alphabet characters followed by at most two `=`.  Since `=` is not an
alphabet character, this is equivalent to: after dropping the maximal
alphabet run, only `[]`, `[=]` or `[==]` remains. -/
def b64re_ok (cs : List Char) : Bool :=
  let rest := cs.dropWhile isB64Char
  rest = [] || rest = ['='] || rest = ['=', '=']

/-- `TaskParser._is_base64`: minimum length 20, the charset regex, and a
successful strict decode to non-empty bytes. -/
def is_base64 (cs : List Char) : Bool :=
  if cs.length < 20 then false
  else if !(b64re_ok cs) then false
  else
    match decode64 cs with
    | some bs => decide (0 < bs.length)
    | none => false

/-- `\w` for the regexes in `_extract_base64_content` (ASCII). -/
def isWordChar (c : Char) : Bool :=
  (65 ≤ c.toNat && c.toNat ≤ 90) || (97 ≤ c.toNat && c.toNat ≤ 122)
    || (48 ≤ c.toNat && c.toNat ≤ 57) || c = '_'

/-- A Python quote character (`["\']` in the script-block regex). -/
def quoteChar (c : Char) : Bool := c = '"' || c = Char.ofNat 39

/-- Tail of the script regex `["\']([A-Za-z0-9+/]{20,}={0,2})["\']` after
the greedy alphabet run `g`: try `k, k-1, …, 0` padding `=`s (greedy
`={0,2}` with backtracking) followed by a closing quote. -/
def tryPadQuote (g tail : List Char) : Nat → Option (List Char)
  | 0 =>
    (match tail with
     | c :: _ => if quoteChar c then some g else none
     | [] => none)
  | k + 1 =>
    (match
      (if tail.take (k + 1) = List.replicate (k + 1) '=' then
        match tail.drop (k + 1) with
        | c :: _ => if quoteChar c then some (g ++ List.replicate (k + 1) '=') else none
        | [] => none
       else none) with
     | some r => some r
     | none => tryPadQuote g tail k)

/-- One match attempt of the script regex at the current position: an
opening quote, a greedy alphabet run of length at least 20, padding, and
a closing quote.  (A shorter, backtracked run cannot succeed: the
character after it is an alphabet character, never a quote, so only the
padding needs backtracking.) -/
def scriptMatchAt : List Char → Option (List Char)
  | [] => none
  | q :: rest =>
    if quoteChar q then
      let run := rest.takeWhile isB64Char
      if run.length < 20 then none
      else tryPadQuote run (rest.dropWhile isB64Char) 2
    else none

/-- `re.search` of the script regex: leftmost match attempt that succeeds. -/
def scriptSearch : List Char → Option (List Char)
  | [] => none
  | c :: rest =>
    match scriptMatchAt (c :: rest) with
    | some g => some g
    | none => scriptSearch rest

/-- Tail of the raw-markup regex `\b([A-Za-z0-9+/]{40,}={0,2})\b` after a
candidate run `g` (non-empty): try `k, …, 0` padding `=`s followed by a
word boundary (`=` is a non-word character, so with padding the boundary
requires a following word character; with no padding it compares the last
run character against the next character, end-of-input counting as
non-word).  Returns the matched group and the remaining input. -/
def tryPadBoundary (g tail : List Char) : Nat → Option (List Char × List Char)
  | 0 =>
    let lastw := isWordChar (g.getLastD ' ')
    let nextw := match tail with | c :: _ => isWordChar c | [] => false
    if lastw ≠ nextw then some (g, tail) else none
  | k + 1 =>
    (match
      (if tail.take (k + 1) = List.replicate (k + 1) '=' then
        let rest := tail.drop (k + 1)
        let nextw := match rest with | c :: _ => isWordChar c | [] => false
        if nextw then some (g ++ List.replicate (k + 1) '=', rest) else none
       else none) with
     | some r => some r
     | none => tryPadBoundary g tail k)

/-- Backtracking over the greedy `{40,}` run length (longest first). -/
def bareTryLen (run afterRun : List Char) : Nat → Option (List Char × List Char)
  | 0 => none
  | len + 1 =>
    if len + 1 < 40 then none
    else
      match tryPadBoundary (run.take (len + 1)) (run.drop (len + 1) ++ afterRun) 2 with
      | some r => some r
      | none => bareTryLen run afterRun len

/-- One match attempt of the raw-markup regex at the current position:
the leading `\b` compares the previous character's word-ness (`prevW`)
with the head character's. -/
def bareMatchAt (prevW : Bool) (cs : List Char) : Option (List Char × List Char) :=
  match cs with
  | [] => none
  | c :: _ =>
    if prevW ≠ isWordChar c then
      bareTryLen (cs.takeWhile isB64Char) (cs.dropWhile isB64Char)
        (cs.takeWhile isB64Char).length
    else none

/-- `re.findall` of the raw-markup regex: leftmost, non-overlapping;
scanning resumes after each match.  `fuel` bounds the scan (every step
consumes at least one character, so `length + 1` fuel is never exhausted). -/
def findallBareAux (prevW : Bool) : Nat → List Char → List (List Char)
  | _, [] => []
  | 0, _ :: _ => []
  | fuel + 1, c :: rest =>
    match bareMatchAt prevW (c :: rest) with
    | some (g, rest2) => g :: findallBareAux (isWordChar (g.getLastD ' ')) fuel rest2
    | none => findallBareAux (isWordChar c) fuel rest

/-- `re.findall(r'\b([A-Za-z0-9+/]{40,}={0,2})\b', html)`. -/
def findall_bare (cs : List Char) : List (List Char) :=
  findallBareAux false (cs.length + 1) cs

/-- The rendered page as `_extract_base64_content` sees it through
BeautifulSoup: the elements in document order as `(tag name, get_text())`
pairs, the `data-task` attribute values, the script text contents, and
the raw markup string. -/
structure Markup where
  tags : List (String × String)
  dataTaskAttrs : List String
  scripts : List String
  raw : String

/-- `TaskParser._extract_base64_content`, patterns 1-4 in source order:
(1) stripped text of `pre`/`code`/`div`/`span` elements passing
`_is_base64`; (2) `data-task` attribute values; (3) the first script
whose regex match passes `_is_base64`; (4) the first raw-markup regex
match passing `_is_base64`.  `none` models the `ValueError` raise. -/
def extract_base64_content (m : Markup) : Option (List Char) :=
  match (m.tags.filterMap (fun t =>
      if t.1 = "pre" || t.1 = "code" || t.1 = "div" || t.1 = "span" then
        let txt := pyStrip t.2.toList
        if is_base64 txt then some txt else none
      else none)).head? with
  | some t => some t
  | none =>
    match (m.dataTaskAttrs.filterMap (fun a =>
        if is_base64 a.toList then some a.toList else none)).head? with
    | some t => some t
    | none =>
      match (m.scripts.filterMap (fun s =>
          match scriptSearch s.toList with
          | some g => if is_base64 g then some g else none
          | none => none)).head? with
      | some t => some t
      | none =>
        ((findall_bare m.raw.toList).filterMap (fun g =>
          if is_base64 g then some g else none)).head?

/-- A character allowed inside a URL by the regex
`https?://[^\s<>"{}|\\^`\[\]]+` (the excluded braces/backtick are written
by code point). -/
def isUrlChar (c : Char) : Bool :=
  !(isPySpace c || c = '<' || c = '>' || c = '"' || c = Char.ofNat 123
    || c = Char.ofNat 125 || c = '|' || c = '\\' || c = '^'
    || c = Char.ofNat 96 || c = '[' || c = ']')

/-- Length of the literal scheme `https?://` at the head of `cs`
(the greedy `s?` prefers `https://`). -/
def urlSchemeLen (cs : List Char) : Option Nat :=
  if "https://".toList.isPrefixOf cs then some 8
  else if "http://".toList.isPrefixOf cs then some 7
  else none

/-- One URL-regex match attempt at the current position: the scheme
followed by a non-empty greedy run of allowed characters. -/
def matchUrlAt (cs : List Char) : Option (List Char × List Char) :=
  match urlSchemeLen cs with
  | none => none
  | some k =>
    let rest := cs.drop k
    let run := rest.takeWhile isUrlChar
    if run.isEmpty then none
    else some (cs.take k ++ run, rest.dropWhile isUrlChar)

/-- `re.findall` of the URL regex (leftmost, non-overlapping). -/
def findUrlsAux : Nat → List Char → List (List Char)
  | _, [] => []
  | 0, _ :: _ => []
  | fuel + 1, c :: rest =>
    match matchUrlAt (c :: rest) with
    | some (u, rest2) => u :: findUrlsAux fuel rest2
    | none => findUrlsAux fuel rest

/-- `re.findall(r'https?://[^\s<>"{}|\\^`\[\]]+', instructions)`. -/
def findUrls (cs : List Char) : List (List Char) := findUrlsAux (cs.length + 1) cs

/-- Python `str.rstrip(chars)`. -/
def rstripChars (cs : List Char) (bad : List Char) : List Char :=
  (cs.reverse.dropWhile (· ∈ bad)).reverse

/-- Python `str.strip(chars)`. -/
def stripChars (cs : List Char) (bad : List Char) : List Char :=
  rstripChars (cs.dropWhile (· ∈ bad)) bad

/-- `TaskParser._clean_url`: `url.rstrip('.,;:!?)')` then
`url.strip('\'"')`. -/
def clean_url (cs : List Char) : List Char :=
  stripChars (rstripChars cs ['.', ',', ';', ':', '!', '?', ')'])
    ['"', Char.ofNat 39]

/-- Case-insensitive literal prefix test (`re.IGNORECASE` matching of a
lowercase literal). -/
def ciPrefixOf (lit : String) (cs : List Char) : Bool :=
  lit.toList.isPrefixOf (lowerL cs)

/-- `[:\s]` (colon or whitespace), used by the phrase regexes. -/
def isColonWs (c : Char) : Bool := c = ':' || isPySpace c

/-- `(https?://[^\s\n]+)`: the captured URL of the phrase regexes — the
scheme then a non-empty greedy run of non-whitespace characters. -/
def captureUrl (r : List Char) : Option (List Char) :=
  match urlSchemeLen r with
  | none => none
  | some k =>
    let run := (r.drop k).takeWhile (fun c => !isPySpace c)
    if run.isEmpty then none else some (r.take k ++ run)

/-- `[:\s]+(https?://[^\s\n]+)`: a non-empty separator run then the
capture.  (The greedy `[:\s]+` needs no backtracking: the capture must
start with `h`, which `[:\s]` never matches.) -/
def phraseUrlTail (r : List Char) : Option (List Char) :=
  if (r.takeWhile isColonWs).isEmpty then none
  else captureUrl (r.dropWhile isColonWs)

/-- `r'submit\s+(?:to|at|endpoint)[:\s]+(https?://[^\s\n]+)'` at the
current position (each alternative tried with its continuation, as the
regex engine does). -/
def submitPhraseAt (cs : List Char) : Option (List Char) :=
  if ciPrefixOf "submit" cs then
    let r1 := cs.drop 6
    if (r1.takeWhile isPySpace).isEmpty then none
    else
      let r2 := r1.dropWhile isPySpace
      match (if ciPrefixOf "to" r2 then phraseUrlTail (r2.drop 2) else none) with
      | some u => some u
      | none =>
        match (if ciPrefixOf "at" r2 then phraseUrlTail (r2.drop 2) else none) with
        | some u => some u
        | none =>
          if ciPrefixOf "endpoint" r2 then phraseUrlTail (r2.drop 8) else none
  else none

/-- `r'endpoint[:\s]+(https?://[^\s\n]+)'` at the current position. -/
def endpointPhraseAt (cs : List Char) : Option (List Char) :=
  if ciPrefixOf "endpoint" cs then phraseUrlTail (cs.drop 8) else none

/-- `r'POST\s+(?:to|at)[:\s]+(https?://[^\s\n]+)'` at the current
position. -/
def postPhraseAt (cs : List Char) : Option (List Char) :=
  if ciPrefixOf "post" cs then
    let r1 := cs.drop 4
    if (r1.takeWhile isPySpace).isEmpty then none
    else
      let r2 := r1.dropWhile isPySpace
      match (if ciPrefixOf "to" r2 then phraseUrlTail (r2.drop 2) else none) with
      | some u => some u
      | none =>
        if ciPrefixOf "at" r2 then phraseUrlTail (r2.drop 2) else none
  else none

/-- `re.search` for a phrase pattern: leftmost position that matches. -/
def searchPhrase (f : List Char → Option (List Char)) : List Char → Option (List Char)
  | [] => none
  | c :: rest =>
    match f (c :: rest) with
    | some u => some u
    | none => searchPhrase f rest

/-- `TaskParser._parse_submit_url`.  Pattern 1: all URLs in the
instructions, preferring one containing `submit` (case-insensitive),
else the first.  Pattern 2 (only when no URL matched): the three phrase
regexes in order.  `none` models the `ValueError` raise.  The
`urljoin(base_url, url)` branch is unreachable: every captured URL starts
with `http`, so it always has a scheme. -/
def parse_submit_url (instructions : List Char) : Option (List Char) :=
  match findUrls instructions with
  | u :: urls =>
    match (u :: urls).find? (fun v => hasSub "submit".toList (lowerL v)) with
    | some v => some (clean_url v)
    | none => some (clean_url u)
  | [] =>
    match searchPhrase submitPhraseAt instructions with
    | some u => some (clean_url (pyStrip u))
    | none =>
      match searchPhrase endpointPhraseAt instructions with
      | some u => some (clean_url (pyStrip u))
      | none =>
        match searchPhrase postPhraseAt instructions with
        | some u => some (clean_url (pyStrip u))
        | none => none

/-- `TaskParser._detect_answer_format`: priority-ordered keyword
heuristics over the lower-cased instructions (the `'{'` test is written
by code point). -/
def detect_answer_format (instructions : List Char) : AnswerFormat :=
  let low := lowerL instructions
  if hasSub "base64".toList low || hasSub "data:image".toList low
      || hasSub "chart".toList low || hasSub "visualization".toList low
      || hasSub "image".toList low then .base64
  else if hasSub "json".toList low || hasSub "object".toList low
      || instructions.contains (Char.ofNat 123) then .json
  else if hasSub "true".toList low || hasSub "false".toList low
      || hasSub "boolean".toList low || hasSub "yes/no".toList low then .boolean
  else if hasSub "number".toList low || hasSub "count".toList low
      || hasSub "sum".toList low || hasSub "average".toList low
      || hasSub "total".toList low then .number
  else .string

/-- The recognized file extensions of `_extract_file_urls`. -/
def fileExts : List String :=
  ["pdf", "csv", "json", "xlsx", "xls", "txt", "png", "jpg", "jpeg", "gif",
   "mp3", "wav", "mp4"]

/-- `re.search(r'\.(pdf|csv|…)', url, re.IGNORECASE)` as an existence
test: some position starts with `.` followed by one of the extensions. -/
def hasFileExt (u : List Char) : Bool :=
  fileExts.any (fun e => hasSub ('.' :: e.toList) (lowerL u))

/-- `r'download[:\s]+([^\s\n]+)'` at the current position: the literal,
a greedy separator run of length `k` (backtracked downward — a shorter
run can expose a `:` that the capture class `[^\s\n]` accepts), then a
non-empty non-whitespace capture.  Returns the capture and the input
remaining after the whole match. -/
def downloadTryK (r : List Char) : Nat → Option (List Char × List Char)
  | 0 => none
  | k + 1 =>
    let cap := (r.drop (k + 1)).takeWhile (fun c => !isPySpace c)
    if cap.isEmpty then downloadTryK r k
    else some (cap, (r.drop (k + 1)).dropWhile (fun c => !isPySpace c))

/-- One match attempt of the download regex at the current position. -/
def downloadMatchAt (cs : List Char) : Option (List Char × List Char) :=
  if ciPrefixOf "download" cs then
    let r := cs.drop 8
    downloadTryK r (r.takeWhile isColonWs).length
  else none

/-- `re.findall` of the download regex (leftmost, non-overlapping,
capture group only). -/
def findDownloadsAux : Nat → List Char → List (List Char)
  | _, [] => []
  | 0, _ :: _ => []
  | fuel + 1, c :: rest =>
    match downloadMatchAt (c :: rest) with
    | some (cap, rest2) => cap :: findDownloadsAux fuel rest2
    | none => findDownloadsAux fuel rest

/-- `re.findall(r'download[:\s]+([^\s\n]+)', instructions, re.IGNORECASE)`. -/
def findDownloads (cs : List Char) : List (List Char) :=
  findDownloadsAux (cs.length + 1) cs

/-- De-duplication preserving first-seen order (the `seen` set loop). -/
def dedupeAux (seen : List (List Char)) : List (List Char) → List (List Char)
  | [] => []
  | u :: rest =>
    if u ∈ seen then dedupeAux seen rest
    else u :: dedupeAux (u :: seen) rest

/-- `TaskParser._extract_file_urls`: URLs whose cleaned form contains a
recognized extension, then cleaned `download:` captures that start with
`http`, de-duplicated in order.  (The first regex loop in the source is
dead code — its body is `pass`; the `urljoin` branch is unreachable as in
`_parse_submit_url`.) -/
def extract_file_urls (instructions : List Char) : List (List Char) :=
  let withExt := (findUrls instructions).filterMap (fun u =>
    let v := clean_url u
    if hasFileExt v then some v else none)
  let downloads := (findDownloads instructions).filterMap (fun m =>
    let v := clean_url m
    if "http".toList.isPrefixOf v then some v else none)
  dedupeAux [] (withExt ++ downloads)

/-- UTF-8 decoding of the base64-decoded bytes (`_decode_base64`),
modelled on ASCII payloads: every concrete instruction text settled here
is ASCII, where UTF-8 decoding is the identity on code points.  The
general round-trip claim (C6) is settled at the byte level, where UTF-8
encoding is injective. -/
def bytesToTextAscii (bs : List Nat) : Option (List Char) :=
  if bs.all (· < 128) then some (bs.map Char.ofNat) else none

/-- `TaskDefinition` (`models.py`) as produced by the parser, with the
`additional_context={"is_demo": True}` marker as a flag. -/
structure TaskDefM where
  instructions : List Char
  submit_url : List Char
  answer_format : AnswerFormat
  file_urls : List (List Char)
  is_demo : Bool
deriving DecidableEq

/-- `TaskParser.parse_quiz_page`: the `/demo` special case, then
extract → decode → submit-URL → answer-format → file-URLs.  `none`
models the `ValueError` raises. -/
def parse_quiz_page (m : Markup) (base_url : String) : Option TaskDefM :=
  if strHasSub base_url "/demo" && strHasSub m.raw "POST this JSON" then
    some ⟨"Demo page: Submit any answer to proceed to the actual quiz.".toList,
      "https://tds-llm-analysis.s-anand.net/submit".toList, .string, [], true⟩
  else
    match extract_base64_content m with
    | none => none
    | some b64 =>
      match decode64 b64 with
      | none => none
      | some bytes =>
        match bytesToTextAscii bytes with
        | none => none
        | some instr =>
          match parse_submit_url instr with
          | none => none
          | some su =>
            some ⟨instr, su, detect_answer_format instr, extract_file_urls instr, false⟩

/-! ## `src/llm_agent.py`: `_parse_answer` -/

/-- A parsed JSON value (`json.loads` result).  Numbers are exact
rationals; ints and floats are not distinguished. -/
inductive JVal where
  | null
  | bool (b : Bool)
  | num (q : ℚ)
  | str (s : String)
  | arr (xs : List JVal)
  | obj (fields : List (String × JVal))

/-- Python truthiness `bool(v)` of a `json.loads` result. -/
def jvalTruthy : JVal → Bool
  | .null => false
  | .bool b => b
  | .num q => decide (q ≠ 0)
  | .str s => !s.isEmpty
  | .arr xs => !xs.isEmpty
  | .obj fs => !fs.isEmpty

/-- JSON whitespace. -/
def jwsChar (c : Char) : Bool := c = ' ' || c = '\t' || c = '\n' || c = '\r'

/-- Decimal digits to a natural number. -/
def digitsToNat (ds : List Char) : Nat :=
  ds.foldl (fun a c => a * 10 + (c.toNat - 48)) 0

/-- JSON string body after the opening quote: plain characters and the
standard escapes, up to the closing quote.  `\uXXXX` becomes the code
point directly (surrogate pairs are not recombined — no claim touches
them).  Returns the decoded characters and the rest of the input. -/
def jparseStringBody : Nat → List Char → Option (List Char × List Char)
  | _, [] => none
  | 0, _ :: _ => none
  | fuel + 1, c :: rest =>
    if c = '"' then some ([], rest)
    else if c = '\\' then
      match rest with
      | [] => none
      | e :: rest2 =>
        let dec : Option (Char × List Char) :=
          if e = '"' then some ('"', rest2)
          else if e = '\\' then some ('\\', rest2)
          else if e = '/' then some ('/', rest2)
          else if e = 'b' then some (Char.ofNat 8, rest2)
          else if e = 'f' then some (Char.ofNat 12, rest2)
          else if e = 'n' then some ('\n', rest2)
          else if e = 'r' then some ('\r', rest2)
          else if e = 't' then some ('\t', rest2)
          else if e = 'u' then
            let hx := rest2.take 4
            if hx.length = 4 ∧ hx.all (fun h => h.isDigit || (97 ≤ h.toNat && h.toNat ≤ 102) || (65 ≤ h.toNat && h.toNat ≤ 70)) then
              let hv := hx.foldl (fun a h =>
                a * 16 + (if h.isDigit then h.toNat - 48
                  else if 97 ≤ h.toNat then h.toNat - 87 else h.toNat - 55)) 0
              some (Char.ofNat hv, rest2.drop 4)
            else none
          else none
        match dec with
        | some (d, rest3) =>
          match jparseStringBody fuel rest3 with
          | some (s, r) => some (d :: s, r)
          | none => none
        | none => none
    else
      match jparseStringBody fuel rest with
      | some (s, r) => some (c :: s, r)
      | none => none

/-- A JSON number per the grammar
`-?(0|[1-9][0-9]*)(\.[0-9]+)?([eE][+-]?[0-9]+)?`, evaluated exactly. -/
def jparseNumber (cs : List Char) : Option (ℚ × List Char) :=
  let signed := match cs with
    | c :: t => if c = '-' then (true, t) else (false, cs)
    | [] => (false, cs)
  let neg := signed.1
  let cs1 := signed.2
  let ip := cs1.takeWhile Char.isDigit
  if ip.isEmpty then none
  else if 1 < ip.length ∧ ip.headD '0' = '0' then none
  else
    let r1 := cs1.dropWhile Char.isDigit
    let fracStep : Option (ℚ × List Char) :=
      match r1 with
      | '.' :: r2 =>
        let fr := r2.takeWhile Char.isDigit
        if fr.isEmpty then none
        else some ((digitsToNat fr : ℚ) / (10 : ℚ) ^ fr.length, r2.dropWhile Char.isDigit)
      | _ => some (0, r1)
    match fracStep with
    | none => none
    | some (fq, r3) =>
      let expStep : Option (ℤ × List Char) :=
        match r3 with
        | e :: r4 =>
          if e = 'e' ∨ e = 'E' then
            let esigned := match r4 with
              | s :: t => if s = '-' then ((-1 : ℤ), t) else if s = '+' then ((1 : ℤ), t) else ((1 : ℤ), r4)
              | [] => ((1 : ℤ), r4)
            let ed := esigned.2.takeWhile Char.isDigit
            if ed.isEmpty then none
            else some (esigned.1 * (digitsToNat ed : ℤ), esigned.2.dropWhile Char.isDigit)
          else some (0, r3)
        | [] => some (0, r3)
      match expStep with
      | none => none
      | some (ex, r5) =>
        let mag := ((digitsToNat ip : ℚ) + fq) * (10 : ℚ) ^ ex
        some (if neg then -mag else mag, r5)

mutual

/-- Recursive-descent `json.loads` (values, arrays, objects).  `fuel`
bounds the recursion; every recursive step consumes at least one input
character, so `length + 1` fuel never runs out. -/
def jparseVal : Nat → List Char → Option (JVal × List Char)
  | 0, _ => none
  | fuel + 1, cs0 =>
    let cs := cs0.dropWhile jwsChar
    match cs with
    | [] => none
    | c :: rest =>
      if c = 'n' then
        if "ull".toList.isPrefixOf rest then some (.null, rest.drop 3) else none
      else if c = 't' then
        if "rue".toList.isPrefixOf rest then some (.bool true, rest.drop 3) else none
      else if c = 'f' then
        if "alse".toList.isPrefixOf rest then some (.bool false, rest.drop 4) else none
      else if c = '"' then
        match jparseStringBody (rest.length + 1) rest with
        | some (s, r) => some (.str s.asString, r)
        | none => none
      else if c = Char.ofNat 123 then
        match rest.dropWhile jwsChar with
        | d :: r2 =>
          if d = Char.ofNat 125 then some (.obj [], r2)
          else jparseMembers fuel rest []
        | [] => none
      else if c = '[' then
        match rest.dropWhile jwsChar with
        | d :: r2 =>
          if d = ']' then some (.arr [], r2)
          else jparseItems fuel rest []
        | [] => none
      else
        match jparseNumber cs with
        | some (q, r) => some (.num q, r)
        | none => none

/-- Members of a JSON object (after the opening brace). -/
def jparseMembers : Nat → List Char → List (String × JVal) → Option (JVal × List Char)
  | 0, _, _ => none
  | fuel + 1, cs, acc =>
    match cs.dropWhile jwsChar with
    | [] => none
    | c :: rest =>
      if c = '"' then
        match jparseStringBody (rest.length + 1) rest with
        | some (k, r1) =>
          match r1.dropWhile jwsChar with
          | d :: r3 =>
            if d = ':' then
              match jparseVal fuel r3 with
              | some (v, r4) =>
                match r4.dropWhile jwsChar with
                | e :: r6 =>
                  if e = ',' then jparseMembers fuel r6 (acc ++ [(k.asString, v)])
                  else if e = Char.ofNat 125 then some (.obj (acc ++ [(k.asString, v)]), r6)
                  else none
                | [] => none
              | none => none
            else none
          | [] => none
        | none => none
      else none

/-- Items of a JSON array (after the opening bracket). -/
def jparseItems : Nat → List Char → List JVal → Option (JVal × List Char)
  | 0, _, _ => none
  | fuel + 1, cs, acc =>
    match jparseVal fuel cs with
    | some (v, r1) =>
      match r1.dropWhile jwsChar with
      | e :: r3 =>
        if e = ',' then jparseItems fuel r3 (acc ++ [v])
        else if e = ']' then some (.arr (acc ++ [v]), r3)
        else none
      | [] => none
    | none => none

end

/-- `json.loads`: a single JSON value with only whitespace around it. -/
def jsonLoads (s : String) : Option JVal :=
  match jparseVal (s.toList.length + 1) s.toList with
  | some (v, r) => if (r.dropWhile jwsChar).isEmpty then some v else none
  | none => none

/-- The optional-fraction tail of the number regex `-?\d+\.?\d*`. -/
def numDigitsPart (cs : List Char) : List Char :=
  let ds := cs.takeWhile Char.isDigit
  match cs.dropWhile Char.isDigit with
  | '.' :: r2 => ds ++ '.' :: r2.takeWhile Char.isDigit
  | _ => ds

/-- One match attempt of `-?\d+\.?\d*` at the current position. -/
def numMatchAt (cs : List Char) : Option (List Char) :=
  match cs with
  | '-' :: rest =>
    (match rest with
     | d :: _ => if d.isDigit then some ('-' :: numDigitsPart rest) else none
     | [] => none)
  | d :: _ => if d.isDigit then some (numDigitsPart cs) else none
  | [] => none

/-- `re.findall(r'-?\d+\.?\d*', content)[0]`: the leftmost match. -/
def findNumber : List Char → Option (List Char)
  | [] => none
  | c :: rest =>
    match numMatchAt (c :: rest) with
    | some m => some m
    | none => findNumber rest

/-- Numeric value of a matched number string (`float(…)`/`int(…)`,
modelled exactly over `ℚ`). -/
def numStrToRatNN (cs : List Char) : ℚ :=
  let ip := cs.takeWhile Char.isDigit
  match cs.dropWhile Char.isDigit with
  | '.' :: fr => (digitsToNat ip : ℚ) + (digitsToNat fr : ℚ) / (10 : ℚ) ^ fr.length
  | _ => (digitsToNat ip : ℚ)

/-- Numeric value including the optional sign. -/
def numStrToRat (cs : List Char) : ℚ :=
  match cs with
  | '-' :: rest => -(numStrToRatNN rest)
  | _ => numStrToRatNN cs

/-- `re.search(r'\{.*\}', content, re.DOTALL)`: from the leftmost `{`
greedily to the last `}`. -/
def braceExtract (cs : List Char) : Option (List Char) :=
  match cs.dropWhile (fun c => c ≠ Char.ofNat 123) with
  | [] => none
  | b :: rest =>
    let rev := rest.reverse.dropWhile (fun c => c ≠ Char.ofNat 125)
    if rev.isEmpty then none else some (b :: rev.reverse)

/-- The lazy `(\{.*?\})\s*` + closing fence of the fenced-code regex:
scan forward from inside the braces; at each `}` check whether
whitespace and then a fence follows (the lazy `.*?` extends past a `}`
whose suffix check fails). -/
def fencedClose : Nat → List Char → List Char → Option (List Char)
  | _, [], _ => none
  | 0, _ :: _, _ => none
  | fuel + 1, c :: rest, acc =>
    if c = Char.ofNat 125 then
      if "```".toList.isPrefixOf (rest.dropWhile isPySpace) then
        some (Char.ofNat 123 :: acc.reverse ++ [Char.ofNat 125])
      else fencedClose fuel rest (c :: acc)
    else fencedClose fuel rest (c :: acc)

/-- Body of the fenced-code regex after the opening fence and optional
`json` tag: `\s*` then the lazy brace group. -/
def fencedBody (r : List Char) : Option (List Char) :=
  match r.dropWhile isPySpace with
  | [] => none
  | b :: rest =>
    if b = Char.ofNat 123 then fencedClose (rest.length + 1) rest []
    else none

/-- One match attempt of
`` r'```(?:json)?\s*(\{.*?\})\s*```' `` (DOTALL) at the current
position: the greedy `(?:json)?` tries the tagged variant first. -/
def fencedAt (cs : List Char) : Option (List Char) :=
  if "```".toList.isPrefixOf cs then
    let r := cs.drop 3
    match (if "json".toList.isPrefixOf r then fencedBody (r.drop 4) else none) with
    | some g => some g
    | none => fencedBody r
  else none

/-- `re.search` of the fenced-code regex. -/
def fencedSearch : List Char → Option (List Char)
  | [] => none
  | c :: rest =>
    match fencedAt (c :: rest) with
    | some g => some g
    | none => fencedSearch rest

/-- A Python value as returned by `_parse_answer`. -/
inductive PyVal where
  | pyBool (b : Bool)
  | pyNum (q : ℚ)
  | pyStr (s : String)
  | pyJson (j : JVal)

/-- The `try:` body of `LLMAgent._parse_answer`, on the already-stripped
content.  `.error ()` is an exception escaping the body (to be caught by
the outer `except`).  `ctx` models the `self.context['results']`
dictionary lookup of the base64 branch. -/
def parse_answer_inner (jloads : String → Option JVal) (ctx : String → Option PyVal)
    (content : String) (fmt : AnswerFormat) : Except Unit PyVal :=
  match fmt with
  | .boolean =>
    let low := lowerL content.toList
    if hasSub "true".toList low || hasSub "yes".toList low then .ok (.pyBool true)
    else if hasSub "false".toList low || hasSub "no".toList low then .ok (.pyBool false)
    else
      match jloads content with
      | some v => .ok (.pyBool (jvalTruthy v))
      | none => .error ()
  | .number =>
    match findNumber content.toList with
    | some m => .ok (.pyNum (numStrToRat m))
    | none =>
      match jloads content with
      | some v => .ok (.pyJson v)
      | none => .error ()
  | .string =>
    (match jloads content with
     | some (.str s) => .ok (.pyStr s)
     | _ => .ok (.pyStr content))
  | .base64 =>
    (match ctx content with
     | some v => .ok v
     | none => .ok (.pyStr content))
  | .json =>
    match jloads content with
    | some v => .ok (.pyJson v)
    | none =>
      match fencedSearch content.toList with
      | some g =>
        (match jloads g.asString with
         | some v => .ok (.pyJson v)
         | none => .error ())
      | none =>
        match braceExtract content.toList with
        | some g =>
          (match jloads g.asString with
           | some v => .ok (.pyJson v)
           | none => .error ())
        | none => .error ()

/-- `LLMAgent._parse_answer`: strip the content, run the `try:` body, and
on any exception fall back to returning the (stripped) content. -/
def parse_answer (jloads : String → Option JVal) (ctx : String → Option PyVal)
    (content : String) (fmt : AnswerFormat) : Except Unit PyVal :=
  let stripped := (pyStrip content.toList).asString
  match parse_answer_inner jloads ctx stripped fmt with
  | .ok v => .ok v
  | .error _ => .ok (.pyStr stripped)

/-! ## Concrete scenario data used by the claims -/

/-- Submission-outcome oracle for the cycle scenario: quiz `A` points to
`B`, `B` points back to `A`. -/
def cycleOracle : String → Option String :=
  fun u => if u = "A" then some "B" else if u = "B" then some "A" else none

/-- The C5 scenario instruction text. -/
def c5Instructions : String :=
  "Submit to: https://x/submit. Return a number. Download https://x/data.csv"

/-- Base64 encoding of `c5Instructions` (proved below to equal
`encode64` of its bytes). -/
def c5Encoded : String :=
  "U3VibWl0IHRvOiBodHRwczovL3gvc3VibWl0LiBSZXR1cm4gYSBudW1iZXIuIERvd25sb2FkIGh0dHBzOi8veC9kYXRhLmNzdg=="

/-- Rendered markup containing the encoded C5 task in a `pre` element. -/
def c5Markup : Markup :=
  ⟨[("pre", c5Encoded)], [], [], "<pre>" ++ c5Encoded ++ "</pre>"⟩

/-- Embedding an encoded payload as the text of a `pre` element
(position (a) of the round-trip claim). -/
def tagEmbed (enc : List Char) : Markup :=
  ⟨[("pre", enc.asString)], [], [], "<pre>" ++ enc.asString ++ "</pre>"⟩

/-- Embedding an encoded payload in the `data-task` attribute
(position (b)); the element's own text is empty. -/
def attrEmbed (enc : List Char) : Markup :=
  ⟨[("div", "")], [enc.asString], [], "<div data-task=" ++ enc.asString ++ "></div>"⟩

/-- Embedding an encoded payload as a quoted string literal in a script
block (position (c)). -/
def scriptEmbed (enc : List Char) : Markup :=
  ⟨[], [], ["var taskData = \"" ++ enc.asString ++ "\";"],
   "<script>var taskData = \"" ++ enc.asString ++ "\";</script>"⟩

/-- Embedding an encoded payload as a bare run in the raw markup
(position (d)). -/
def rawEmbed (enc : List Char) : Markup :=
  ⟨[], [], [], enc.asString⟩

/-- Payload discovery then strict decode: the byte-level "decoded
instructions" of the parser pipeline. -/
def extract_decoded (m : Markup) : Option (List Nat) :=
  match extract_base64_content m with
  | some b64 => decode64 b64
  | none => none

/-- The six retryable categories as listed by the spec/claim. -/
def retryableCat (c : ErrorCategory) : Prop :=
  c = .timeout ∨ c = .browser ∨ c = .network ∨ c = .llm_api ∨
  c = .data_processing ∨ c = .task_execution

/-- An error that is not pre-tagged and matches no classifier keyword. -/
def mysteryError : PyError := ⟨none, "SomeError", "mystery failure"⟩

/-! ## Theorems -/

lemma is_retryable_of_retryableCat {c : ErrorCategory} (h : retryableCat c) :
    is_retryable c = true := by
  rcases h with h | h | h | h | h | h <;> subst h <;> decide

lemma withRetryAux_eq {α : Type} (h : ErrorHandlerCfg) (op : Nat → Except PyError α)
    (maxR : Nat) (ro : Option (PyError → Bool)) (attempt fuel : Nat) :
    withRetryAux h op maxR ro attempt fuel =
      match op attempt with
      | .ok v => ⟨.ok v, 1, []⟩
      | .error e =>
        if (match ro with | some p => !(p e) | none => false) then ⟨.error e, 1, []⟩
        else if !(is_retryable (classify_error e)) then ⟨.error e, 1, []⟩
        else if maxR ≤ attempt then ⟨.error e, 1, []⟩
        else
          match fuel with
          | 0 => ⟨.error e, 1, []⟩
          | fuel' + 1 =>
            let rest := withRetryAux h op maxR ro (attempt + 1) fuel'
            ⟨rest.outcome, rest.attempts + 1, calculate_delay h attempt :: rest.delays⟩ := by
  rw [withRetryAux]

lemma withRetryAux_noretry {α : Type} (h : ErrorHandlerCfg) (op : Nat → Except PyError α)
    (maxR attempt fuel : Nat) (e : PyError) (he : op attempt = .error e)
    (hr : is_retryable (classify_error e) = false) :
    withRetryAux h op maxR none attempt fuel = ⟨.error e, 1, []⟩ := by
  rw [withRetryAux_eq, he]
  simp [hr]

lemma withRetryAux_all_fail {α : Type} (h : ErrorHandlerCfg) (op : Nat → Except PyError α)
    (maxR : Nat)
    (hfail : ∀ i, i ≤ maxR → ∃ e, op i = .error e ∧ is_retryable (classify_error e) = true) :
    ∀ fuel attempt, attempt ≤ maxR → maxR ≤ attempt + fuel →
    ∃ e, op maxR = .error e ∧
      withRetryAux h op maxR none attempt fuel =
        ⟨.error e, maxR + 1 - attempt, (List.range' attempt (maxR - attempt)).map (calculate_delay h)⟩ := by
  intro fuel
  induction fuel with
  | zero =>
    intro attempt h1 h2
    have hma : attempt = maxR := by omega
    subst hma
    obtain ⟨e, he, hr⟩ := hfail attempt le_rfl
    refine ⟨e, he, ?_⟩
    rw [withRetryAux_eq, he]
    simp [hr]
  | succ fuel ih =>
    intro attempt h1 h2
    by_cases hlt : attempt < maxR
    · obtain ⟨e, he, hr⟩ := hfail attempt (le_of_lt hlt)
      obtain ⟨e', he', hrec⟩ := ih (attempt + 1) hlt (by omega)
      refine ⟨e', he', ?_⟩
      rw [withRetryAux_eq, he]
      have hn : maxR - attempt = (maxR - (attempt + 1)) + 1 := by omega
      simp only [hn, List.range'_succ, List.map_cons]
      simp [hr, hrec, Nat.not_le.mpr hlt]
      omega
    · have hma : attempt = maxR := by omega
      subst hma
      obtain ⟨e, he, hr⟩ := hfail attempt le_rfl
      refine ⟨e, he, ?_⟩
      rw [withRetryAux_eq, he]
      simp [hr]

/-- C1: for every attempt `n`, the backoff delay equals
`min(base_delay × exponential_base^n, max_delay)`, and (for a
non-negative base and a multiplier at least 1, as in every configuration
the code constructs) the delay sequence is non-decreasing in `n`. -/
theorem C1_calculate_delay_spec (h : ErrorHandlerCfg) (n : Nat)
    (hb : 0 ≤ h.base_delay) (he : 1 ≤ h.exponential_base) :
    calculate_delay h n = min (h.base_delay * h.exponential_base ^ n) h.max_delay ∧
    calculate_delay h n ≤ calculate_delay h (n + 1) := by
  refine ⟨rfl, ?_⟩
  unfold calculate_delay
  refine min_le_min ?_ le_rfl
  exact mul_le_mul_of_nonneg_left (pow_le_pow_right₀ he (Nat.le_succ n)) hb

/-- Witness for C1 at the default configuration and `n = 3`. -/
theorem C1_witness :
    calculate_delay defaultErrorHandler 3 =
      min (defaultErrorHandler.base_delay * defaultErrorHandler.exponential_base ^ 3)
        defaultErrorHandler.max_delay ∧
    calculate_delay defaultErrorHandler 3 ≤ calculate_delay defaultErrorHandler 4 :=
  C1_calculate_delay_spec defaultErrorHandler 3 (by norm_num [defaultErrorHandler])
    (by norm_num [defaultErrorHandler])

/-- C2: under the execute-with-retry wrapper, an error classified as
authentication or validation is re-raised after a single attempt with no
backoff sleeps, regardless of the attempt budget; errors that always
classify into one of the six retryable categories are retried with a
backoff sleep per attempt until the cap `maxR` is exhausted
(`maxR + 1` invocations, sleeps `calculate_delay h 0 … calculate_delay h (maxR-1)`)
and only then re-raised. -/
theorem C2_with_retry_policy {α : Type} (h : ErrorHandlerCfg)
    (op : Nat → Except PyError α) (maxR : Nat) :
    (∀ e, op 0 = .error e →
      (classify_error e = .authentication ∨ classify_error e = .validation) →
      with_retry h op maxR none = ⟨.error e, 1, []⟩) ∧
    ((∀ i, i ≤ maxR → ∃ e, op i = .error e ∧ retryableCat (classify_error e)) →
      ∃ e, op maxR = .error e ∧
        with_retry h op maxR none =
          ⟨.error e, maxR + 1, (List.range maxR).map (calculate_delay h)⟩) := by
  constructor
  · intro e he hc
    have hr : is_retryable (classify_error e) = false := by
      rcases hc with hc | hc <;> rw [hc] <;> decide
    exact withRetryAux_noretry h op maxR 0 maxR e he hr
  · intro hfail
    obtain ⟨e, he, htr⟩ := withRetryAux_all_fail h op maxR
      (fun i hi => (hfail i hi).imp (fun e hc => ⟨hc.1, is_retryable_of_retryableCat hc.2⟩))
      maxR 0 (Nat.zero_le _) (by omega)
    refine ⟨e, he, ?_⟩
    rw [with_retry, htr]
    simp [List.range_eq_range']

/-- Witness for C2: a pre-tagged authentication error is raised after one
attempt with no sleeps; a persistent network error with budget 3 is
attempted 4 times with sleeps `delay(0), delay(1), delay(2)`. -/
theorem C2_witness :
    with_retry defaultErrorHandler
      (fun _ => (.error ⟨some .authentication, "AuthenticationError", "Authentication failed"⟩ :
        Except PyError Unit)) 3 none =
      ⟨.error ⟨some .authentication, "AuthenticationError", "Authentication failed"⟩, 1, []⟩ ∧
    ∃ e, (fun _ => (.error ⟨some .network, "NetworkError", "Network operation failed"⟩ :
        Except PyError Unit)) 3 = .error e ∧
      with_retry defaultErrorHandler
        (fun _ => (.error ⟨some .network, "NetworkError", "Network operation failed"⟩ :
          Except PyError Unit)) 3 none =
        ⟨.error e, 3 + 1, (List.range 3).map (calculate_delay defaultErrorHandler)⟩ :=
  ⟨(C2_with_retry_policy defaultErrorHandler _ 3).1 _ rfl (Or.inl rfl),
   (C2_with_retry_policy defaultErrorHandler _ 3).2
     (fun i _ => ⟨⟨some .network, "NetworkError", "Network operation failed"⟩, rfl,
       Or.inr (Or.inr (Or.inl rfl))⟩)⟩

/-- C10: an error classified as `unknown` (not pre-tagged and matching no
keyword rule) is non-retryable, and the wrapper re-raises it after a
single attempt with no sleeps even when budget remains. -/
theorem C10_unknown_immediate {α : Type} (h : ErrorHandlerCfg)
    (op : Nat → Except PyError α) (maxR : Nat) (e : PyError)
    (he : op 0 = .error e) (hc : classify_error e = .unknown) :
    is_retryable (classify_error e) = false ∧
    with_retry h op maxR none = ⟨.error e, 1, []⟩ := by
  have hr : is_retryable (classify_error e) = false := by rw [hc]; decide
  exact ⟨hr, withRetryAux_noretry h op maxR 0 maxR e he hr⟩

/-- Witness for C10: `mysteryError` (type `SomeError`, message
`mystery failure`) classifies to `unknown` and is raised immediately with
budget 3 remaining. -/
theorem C10_witness :
    is_retryable (classify_error mysteryError) = false ∧
    with_retry defaultErrorHandler
      (fun _ => (.error mysteryError : Except PyError Unit)) 3 none =
      ⟨.error mysteryError, 1, []⟩ :=
  C10_unknown_immediate defaultErrorHandler _ 3 mysteryError rfl (by decide)

/-- C3 counterexample: the answer submitter's own first retry sleeps
`min(2^1, 10) = 2` seconds, while the shared policy's first backoff delay
is `min(1 × 2^0, 30) = 1` second — so not every retry delay in the
program equals the shared policy's `min(base × multiplier^attempt, cap)`. -/
theorem C3_counterexample :
    submitter_retry_delay 0 ≠ calculate_delay defaultErrorHandler 0 := by
  norm_num [submitter_retry_delay, calculate_delay, defaultErrorHandler]

/-- C3 amended: the answer submitter and the LLM agent implement their
own retry loops with their own delay formulas — `min(2^(n+1), 10)` and
`2^n` respectively — and the submitter's delay differs from the shared
default policy `min(2^n, 30)` at every attempt index. -/
theorem C3_retry_delay_policies (n : Nat) :
    submitter_retry_delay n = min ((2 : ℚ) ^ (n + 1)) 10 ∧
    llm_retry_delay n = (2 : ℚ) ^ n ∧
    calculate_delay defaultErrorHandler n = min ((2 : ℚ) ^ n) 30 ∧
    submitter_retry_delay n ≠ calculate_delay defaultErrorHandler n := by
  refine ⟨rfl, rfl, by simp [calculate_delay, defaultErrorHandler], ?_⟩
  rcases Nat.lt_or_ge n 5 with h5 | h5
  · interval_cases n <;>
      norm_num [submitter_retry_delay, calculate_delay, defaultErrorHandler]
  · have h1 : submitter_retry_delay n = 10 := by
      rw [submitter_retry_delay, min_eq_right]
      calc (10 : ℚ) ≤ 2 ^ 6 := by norm_num
        _ ≤ 2 ^ (n + 1) := pow_le_pow_right₀ (by norm_num) (by omega)
    have h2 : calculate_delay defaultErrorHandler n = 30 := by
      rw [calculate_delay]
      show min ((1 : ℚ) * 2 ^ n) 30 = 30
      rw [one_mul, min_eq_right]
      calc (30 : ℚ) ≤ 2 ^ 5 := by norm_num
        _ ≤ 2 ^ n := pow_le_pow_right₀ (by norm_num) h5
    rw [h1, h2]
    norm_num

lemma submitAnswerAux_5xx_all (att : Nat → SubmitAttempt) (maxR : Nat) (s : Nat)
    (hs : 500 ≤ s) (hall : ∀ i, att i = .httpError s) :
    ∀ fuel rc, rc ≤ maxR → maxR ≤ rc + fuel →
    submitAnswerAux att maxR fuel rc =
      ⟨.error (.network (some s)), maxR + 1 - rc,
        (List.range' rc (maxR - rc)).map submitter_retry_delay⟩ := by
  intro fuel
  induction fuel with
  | zero =>
    intro rc h1 h2
    have hrc : rc = maxR := by omega
    subst hrc
    simp [submitAnswerAux, hall rc]
  | succ fuel ih =>
    intro rc h1 h2
    by_cases hlt : rc < maxR
    · have hrec := ih (rc + 1) hlt (by omega)
      have hn : maxR - rc = (maxR - (rc + 1)) + 1 := by omega
      simp only [submitAnswerAux, hall rc, hn, List.range'_succ, List.map_cons]
      simp [hrec, hs, hlt] <;> omega
    · have hrc : rc = maxR := by omega
      subst hrc
      simp [submitAnswerAux, hall rc, hlt]

lemma submitAnswerAux_req_all (att : Nat → SubmitAttempt) (maxR : Nat)
    (hall : ∀ i, att i = .requestError) :
    ∀ fuel rc, rc ≤ maxR → maxR ≤ rc + fuel →
    submitAnswerAux att maxR fuel rc =
      ⟨.error (.network none), maxR + 1 - rc,
        (List.range' rc (maxR - rc)).map submitter_retry_delay⟩ := by
  intro fuel
  induction fuel with
  | zero =>
    intro rc h1 h2
    have hrc : rc = maxR := by omega
    subst hrc
    simp [submitAnswerAux, hall rc]
  | succ fuel ih =>
    intro rc h1 h2
    by_cases hlt : rc < maxR
    · have hrec := ih (rc + 1) hlt (by omega)
      have hn : maxR - rc = (maxR - (rc + 1)) + 1 := by omega
      simp only [submitAnswerAux, hall rc, hn, List.range'_succ, List.map_cons]
      simp [hrec, hlt] <;> omega
    · have hrc : rc = maxR := by omega
      subst hrc
      simp [submitAnswerAux, hall rc, hlt]

/-- C8 counterexample: a 2xx response whose body is not valid JSON is a
body that fails to parse into `SubmissionOutcome`, yet `submit_answer`
does not raise a validation error: `response.json()` raises
`json.JSONDecodeError`, which only the generic `except Exception:`
handler catches and re-raises unchanged. -/
theorem C8_counterexample :
    submit_answer (fun _ => .bodyError) 3 = ⟨.error .bodyException, 1, []⟩ ∧
    SubmitError.bodyException ≠ SubmitError.validation :=
  ⟨rfl, by decide⟩

/-- C8 amended: answer submission raises a network error immediately
(one POST, no sleeps) on a 4xx response; a persistent 5xx response and a
persistent network-level request failure are each retried up to the
attempt cap (`maxR + 1` POSTs with the exponential sleeps
`min(2^1,10), …, min(2^maxR,10)`) before the network error is raised; a
response body that is valid JSON but fails to parse into a
`SubmissionOutcome` raises a validation error immediately with no retry;
and a response body that is not valid JSON (or not a JSON object)
re-raises the original decode exception unchanged — still no retry, but
not a validation error. -/
theorem C8_submit_answer_policy (att : Nat → SubmitAttempt) (maxR : Nat) :
    (∀ s, 400 ≤ s → s < 500 → att 0 = .httpError s →
      submit_answer att maxR = ⟨.error (.network (some s)), 1, []⟩) ∧
    (∀ s, 500 ≤ s → (∀ i, att i = .httpError s) →
      submit_answer att maxR =
        ⟨.error (.network (some s)), maxR + 1, (List.range maxR).map submitter_retry_delay⟩) ∧
    ((∀ i, att i = .requestError) →
      submit_answer att maxR =
        ⟨.error (.network none), maxR + 1, (List.range maxR).map submitter_retry_delay⟩) ∧
    (att 0 = .parseError → submit_answer att maxR = ⟨.error .validation, 1, []⟩) ∧
    (att 0 = .bodyError → submit_answer att maxR = ⟨.error .bodyException, 1, []⟩) := by
  refine ⟨?_, ?_, ?_, ?_, ?_⟩
  · intro s h4 h5 h0
    have hcond : ¬(500 ≤ s) := by omega
    cases maxR with
    | zero => rw [submit_answer]; simp [submitAnswerAux, h0]
    | succ m => rw [submit_answer]; simp [submitAnswerAux, h0, hcond]
  · intro s h5 hall
    have := submitAnswerAux_5xx_all att maxR s h5 hall maxR 0 (Nat.zero_le _) (by omega)
    rw [submit_answer, this]
    simp [List.range_eq_range']
  · intro hall
    have := submitAnswerAux_req_all att maxR hall maxR 0 (Nat.zero_le _) (by omega)
    rw [submit_answer, this]
    simp [List.range_eq_range']
  · intro h0
    cases maxR with
    | zero => rw [submit_answer]; simp [submitAnswerAux, h0]
    | succ m => rw [submit_answer]; simp [submitAnswerAux, h0]
  · intro h0
    cases maxR with
    | zero => rw [submit_answer]; simp [submitAnswerAux, h0]
    | succ m => rw [submit_answer]; simp [submitAnswerAux, h0]

/-- Witness for C8 with cap 2: a 404 raises at once; persistent 503 and
persistent request errors take 3 POSTs with sleeps `[2, 4]`; a JSON body
failing pydantic validation raises a validation error at once; an
invalid-JSON body re-raises the decode exception at once. -/
theorem C8_witness :
    submit_answer (fun _ => .httpError 404) 2 = ⟨.error (.network (some 404)), 1, []⟩ ∧
    submit_answer (fun _ => .httpError 503) 2 =
      ⟨.error (.network (some 503)), 2 + 1, (List.range 2).map submitter_retry_delay⟩ ∧
    submit_answer (fun _ => .requestError) 2 =
      ⟨.error (.network none), 2 + 1, (List.range 2).map submitter_retry_delay⟩ ∧
    submit_answer (fun _ => .parseError) 2 = ⟨.error .validation, 1, []⟩ ∧
    submit_answer (fun _ => .bodyError) 2 = ⟨.error .bodyException, 1, []⟩ :=
  ⟨(C8_submit_answer_policy _ 2).1 404 (by norm_num) (by norm_num) rfl,
   (C8_submit_answer_policy _ 2).2.1 503 (by norm_num) (fun _ => rfl),
   (C8_submit_answer_policy _ 2).2.2.1 (fun _ => rfl),
   (C8_submit_answer_policy _ 2).2.2.2.1 rfl,
   (C8_submit_answer_policy _ 2).2.2.2.2 rfl⟩

/-- C4: with submission outcomes chaining `A → B → A`, the orchestrated
sequence terminates with 2 quizzes solved, `success = true` and terminal
status `"completed"`. -/
theorem C4_cycle_detection :
    solve_quiz_sequence cycleOracle 10 "A" = ⟨true, 2, "completed"⟩ := by
  decide

lemma should_skip_iff (rc : Nat) (rem : ℚ) :
    should_skip_to_next rc rem = true ↔
      ((rem < 30 ∧ 1 ≤ rc) ∨ (rem < 60 ∧ 2 ≤ rc)) := by
  rw [should_skip_to_next]
  split_ifs with h1 h2
  · exact iff_of_true rfl (Or.inl h1)
  · exact iff_of_true rfl (Or.inr h2)
  · exact iff_of_false (by simp) (by tauto)

/-- C7: after an incorrect verdict carrying a next URL, while the
per-quiz cap is not reached the orchestrator skips if and only if
remaining time is under 30 s with at least 1 prior attempt or under 60 s
with at least 2; otherwise the only other outcome is retrying the same
quiz; and once the cap is reached it always skips. -/
theorem C7_skip_decision (u : String) (rc maxR : Nat) (rem : ℚ)
    (hcap : rc < maxR) :
    (incorrect_verdict_decision (some u) rc maxR rem = .skipTo u ↔
      ((rem < 30 ∧ 1 ≤ rc) ∨ (rem < 60 ∧ 2 ≤ rc))) ∧
    (incorrect_verdict_decision (some u) rc maxR rem = .skipTo u ∨
      incorrect_verdict_decision (some u) rc maxR rem = .retrySame) ∧
    (∀ rc2, maxR ≤ rc2 →
      incorrect_verdict_decision (some u) rc2 maxR rem = .skipTo u) := by
  refine ⟨?_, ?_, ?_⟩
  · rw [incorrect_verdict_decision]
    rw [if_neg (by omega : ¬(maxR ≤ rc))]
    rw [← should_skip_iff rc rem]
    cases hss : should_skip_to_next rc rem <;> simp [hss]
  · rw [incorrect_verdict_decision]
    rw [if_neg (by omega : ¬(maxR ≤ rc))]
    cases hss : should_skip_to_next rc rem <;> simp [hss]
  · intro rc2 h2
    rw [incorrect_verdict_decision, if_pos h2]

/-- Witness for C7: with cap 2, one prior attempt and 20 s left the
orchestrator skips; with the cap reached it skips regardless of time. -/
theorem C7_witness :
    incorrect_verdict_decision (some "next") 1 2 20 = .skipTo "next" ∧
    incorrect_verdict_decision (some "next") 2 2 100 = .skipTo "next" :=
  ⟨((C7_skip_decision "next" 1 2 20 (by norm_num)).1).mpr
      (Or.inl ⟨by norm_num, by norm_num⟩),
   (C7_skip_decision "next" 0 2 100 (by norm_num)).2.2 2 (by norm_num)⟩

/-- C9 counterexample: coercing `"  maybe  "` (whitespace around an
unparsable boolean) returns the *stripped* text `"maybe"`, not the raw
input text unchanged. -/
theorem C9_counterexample :
    parse_answer jsonLoads (fun _ => none) "  maybe  " .boolean =
      .ok (.pyStr "maybe") ∧ ("maybe" : String) ≠ "  maybe  " :=
  ⟨rfl, by decide⟩

/-- C9 amended: answer coercion is total — for every final-answer text
and every declared shape it returns a value rather than raising — and
when the parse of the stripped text fails, the fallback is the
whitespace-*stripped* input text (not the raw input unchanged). -/
theorem C9_parse_answer_total (jloads : String → Option JVal)
    (ctx : String → Option PyVal) (content : String) (fmt : AnswerFormat) :
    ∃ v, parse_answer jloads ctx content fmt = .ok v ∧
      (parse_answer_inner jloads ctx ((pyStrip content.toList).asString) fmt = .error () →
        v = .pyStr ((pyStrip content.toList).asString)) := by
  rw [parse_answer]
  cases hinner : parse_answer_inner jloads ctx ((pyStrip content.toList).asString) fmt with
  | ok v => exact ⟨v, rfl, fun hco => by simp at hco⟩
  | error u => exact ⟨.pyStr ((pyStrip content.toList).asString), rfl, fun _ => rfl⟩

/-- Witness for C9 at the failing boolean input: totality plus the
stripped fallback give `.ok (.pyStr "maybe")`. -/
theorem C9_witness :
    parse_answer jsonLoads (fun _ => none) "  maybe  " .boolean =
      .ok (.pyStr ((pyStrip "  maybe  ".toList).asString)) := by
  obtain ⟨v, hv, himp⟩ :=
    C9_parse_answer_total jsonLoads (fun _ => none) "  maybe  " .boolean
  rw [hv, himp rfl]

/-- C5: the C5 markup carries exactly the base64 encoding of the scenario
text, and parsing it yields submit URL `https://x/submit` (trailing
sentence punctuation stripped), answer format `number`, and file URLs
exactly `["https://x/data.csv"]`. -/
theorem C5_end_to_end :
    encode64 (c5Instructions.toList.map Char.toNat) = c5Encoded.toList ∧
    parse_quiz_page c5Markup "https://example.org/quiz" =
      some ⟨c5Instructions.toList, "https://x/submit".toList, .number,
        ["https://x/data.csv".toList], false⟩ :=
  ⟨by decide, by decide⟩

lemma charToSextet_sextetToChar : ∀ s : Nat, s < 64 →
    charToSextet (sextetToChar s) = some s := by decide

lemma sextetToChar_ne_pad : ∀ s : Nat, s < 64 → sextetToChar s ≠ '=' := by decide

lemma isB64Char_sextetToChar : ∀ s : Nat, s < 64 →
    isB64Char (sextetToChar s) = true := by decide

theorem decode64_encode64 : (bs : List Nat) → (∀ b ∈ bs, b < 256) →
    decode64 (encode64 bs) = some bs
  | [], _ => rfl
  | [a], h => by
    have ha : a < 256 := h a (by simp)
    have h1 := charToSextet_sextetToChar (a / 4) (by omega)
    have h2 := charToSextet_sextetToChar ((a % 4) * 16) (by omega)
    simp only [encode64, decode64, h1, h2]
    simp only [if_pos rfl, and_self, ite_true]
    simp only [Option.some.injEq, List.cons.injEq, and_true]
    omega
  | [a, b], h => by
    have ha : a < 256 := h a (by simp)
    have hb2 : b < 256 := h b (by simp)
    have h1 := charToSextet_sextetToChar (a / 4) (by omega)
    have h2 := charToSextet_sextetToChar ((a % 4) * 16 + b / 16) (by omega)
    have h3 := charToSextet_sextetToChar ((b % 16) * 4) (by omega)
    have h3n := sextetToChar_ne_pad ((b % 16) * 4) (by omega)
    simp only [encode64, decode64, h1, h2]
    rw [if_neg h3n]
    simp only [h3, if_pos rfl]
    simp
    constructor <;> omega
  | a :: b :: c :: rest, h => by
    have ha : a < 256 := h a (by simp)
    have hb2 : b < 256 := h b (by simp)
    have hc : c < 256 := h c (by simp)
    have ih := decode64_encode64 rest (fun x hx => h x (by simp [hx]))
    have h1 := charToSextet_sextetToChar (a / 4) (by omega)
    have h2 := charToSextet_sextetToChar ((a % 4) * 16 + b / 16) (by omega)
    have h3 := charToSextet_sextetToChar ((b % 16) * 4 + c / 64) (by omega)
    have h4 := charToSextet_sextetToChar (c % 64) (by omega)
    have h3n := sextetToChar_ne_pad ((b % 16) * 4 + c / 64) (by omega)
    have h4n := sextetToChar_ne_pad (c % 64) (by omega)
    simp only [encode64, decode64, h1, h2]
    rw [if_neg h3n]
    simp only [h3]
    rw [if_neg h4n]
    simp only [h4, ih, Option.map_some]
    simp
    refine ⟨by omega, by omega, by omega⟩

theorem encode64_length : (bs : List Nat) →
    (encode64 bs).length = 4 * ((bs.length + 2) / 3)
  | [] => rfl
  | [_] => by simp [encode64]
  | [_, _] => by simp [encode64]
  | _ :: _ :: _ :: rest => by
    have ih := encode64_length rest
    simp only [encode64, List.length_cons, ih]
    omega

/-- The shape of a base64 encoding: an alphabet-only main part followed
by padding determined by the byte count mod 3. -/
theorem encode64_split : (bs : List Nat) → (∀ b ∈ bs, b < 256) →
    ∃ main, (∀ c ∈ main, isB64Char c = true) ∧
      ((bs.length % 3 = 0 ∧ encode64 bs = main) ∨
       (bs.length % 3 = 1 ∧ encode64 bs = main ++ ['=', '=']) ∨
       (bs.length % 3 = 2 ∧ encode64 bs = main ++ ['=']))
  | [], _ => ⟨[], by simp, Or.inl ⟨rfl, rfl⟩⟩
  | [a], h => by
    have ha : a < 256 := h a (by simp)
    refine ⟨[sextetToChar (a / 4), sextetToChar ((a % 4) * 16)], ?_, Or.inr (Or.inl ⟨rfl, rfl⟩)⟩
    intro c hc
    simp only [List.mem_cons, List.not_mem_nil, or_false] at hc
    rcases hc with hc | hc
    · exact hc ▸ isB64Char_sextetToChar _ (by omega)
    · exact hc ▸ isB64Char_sextetToChar _ (by omega)
  | [a, b], h => by
    have ha : a < 256 := h a (by simp)
    have hb2 : b < 256 := h b (by simp)
    refine ⟨[sextetToChar (a / 4), sextetToChar ((a % 4) * 16 + b / 16),
      sextetToChar ((b % 16) * 4)], ?_, Or.inr (Or.inr ⟨rfl, rfl⟩)⟩
    intro c hc
    simp only [List.mem_cons, List.not_mem_nil, or_false] at hc
    rcases hc with hc | hc | hc
    · exact hc ▸ isB64Char_sextetToChar _ (by omega)
    · exact hc ▸ isB64Char_sextetToChar _ (by omega)
    · exact hc ▸ isB64Char_sextetToChar _ (by omega)
  | a :: b :: c :: rest, h => by
    have ha : a < 256 := h a (by simp)
    have hb2 : b < 256 := h b (by simp)
    have hc2 : c < 256 := h c (by simp)
    obtain ⟨main, hmain, hdis⟩ := encode64_split rest (fun x hx => h x (by simp [hx]))
    refine ⟨sextetToChar (a / 4) :: sextetToChar ((a % 4) * 16 + b / 16) ::
      sextetToChar ((b % 16) * 4 + c / 64) :: sextetToChar (c % 64) :: main, ?_, ?_⟩
    · intro x hx
      simp only [List.mem_cons] at hx
      rcases hx with hx | hx | hx | hx | hx
      · exact hx ▸ isB64Char_sextetToChar _ (by omega)
      · exact hx ▸ isB64Char_sextetToChar _ (by omega)
      · exact hx ▸ isB64Char_sextetToChar _ (by omega)
      · exact hx ▸ isB64Char_sextetToChar _ (by omega)
      · exact hmain x hx
    · rcases hdis with ⟨hm, he⟩ | ⟨hm, he⟩ | ⟨hm, he⟩
      · exact Or.inl ⟨by simp [List.length_cons]; omega, by simp [encode64, he]⟩
      · exact Or.inr (Or.inl ⟨by simp [List.length_cons]; omega, by simp [encode64, he]⟩)
      · exact Or.inr (Or.inr ⟨by simp [List.length_cons]; omega, by simp [encode64, he]⟩)

lemma isB64Char_ne_pad {c : Char} (h : isB64Char c = true) : c ≠ '=' := by
  intro hc
  subst hc
  simp [isB64Char, charToSextet] at h

lemma isB64Char_toNat_ge {c : Char} (h : isB64Char c = true) : 43 ≤ c.toNat := by
  unfold isB64Char charToSextet at h
  split_ifs at h with h1 h2 h3 h4 h5
  · omega
  · omega
  · omega
  · subst h4; decide
  · subst h5; decide
  · simp at h

lemma isPySpace_false_of_isB64Char {c : Char} (h : isB64Char c = true) :
    isPySpace c = false := by
  have hge := isB64Char_toNat_ge h
  unfold isPySpace
  have hs : c ≠ ' ' := fun hc => by subst hc; simp at hge
  have ht : c ≠ '\t' := fun hc => by subst hc; simp at hge
  have hn : c ≠ '\n' := fun hc => by subst hc; simp at hge
  have hr : c ≠ '\r' := fun hc => by subst hc; simp at hge
  have hv : c ≠ Char.ofNat 11 := fun hc => by subst hc; simp at hge
  have hf : c ≠ Char.ofNat 12 := fun hc => by subst hc; simp at hge
  simp [hs, ht, hn, hr, hv, hf]

lemma dropWhile_eq_self_of_none {p : Char → Bool} :
    ∀ cs : List Char, (∀ c ∈ cs, p c = false) → cs.dropWhile p = cs
  | [], _ => rfl
  | c :: t, h => by
    rw [List.dropWhile_cons_of_neg]
    simp [h c (by simp)]

lemma dropWhile_eq_nil_of_all {p : Char → Bool} :
    ∀ cs : List Char, (∀ c ∈ cs, p c = true) → cs.dropWhile p = []
  | [], _ => rfl
  | c :: t, h => by
    rw [List.dropWhile_cons_of_pos (by simp [h c (by simp)])]
    exact dropWhile_eq_nil_of_all t (fun x hx => h x (by simp [hx]))

lemma pyStrip_of_no_space (cs : List Char) (h : ∀ c ∈ cs, isPySpace c = false) :
    pyStrip cs = cs := by
  unfold pyStrip
  rw [dropWhile_eq_self_of_none cs h,
    dropWhile_eq_self_of_none cs.reverse (fun c hc => h c (List.mem_reverse.mp hc)),
    List.reverse_reverse]

lemma encode64_no_space (bs : List Nat) (hb : ∀ b ∈ bs, b < 256) :
    ∀ c ∈ encode64 bs, isPySpace c = false := by
  obtain ⟨main, hmain, hdis⟩ := encode64_split bs hb
  intro c hc
  have hmem : c ∈ main ∨ c = '=' := by
    rcases hdis with ⟨_, he⟩ | ⟨_, he⟩ | ⟨_, he⟩ <;> rw [he] at hc
    · exact Or.inl hc
    · simp at hc; tauto
    · simp at hc; tauto
  rcases hmem with hm | hm
  · exact isPySpace_false_of_isB64Char (hmain c hm)
  · subst hm; decide

lemma b64re_ok_encode64 (bs : List Nat) (hb : ∀ b ∈ bs, b < 256) :
    b64re_ok (encode64 bs) = true := by
  obtain ⟨main, hmain, hdis⟩ := encode64_split bs hb
  unfold b64re_ok
  rcases hdis with ⟨_, he⟩ | ⟨_, he⟩ | ⟨_, he⟩ <;> rw [he]
  · simp [dropWhile_eq_nil_of_all main hmain]
  · rw [List.dropWhile_append_of_pos hmain]
    simp [List.dropWhile, show isB64Char '=' = false from by decide]
  · rw [List.dropWhile_append_of_pos hmain]
    simp [List.dropWhile, show isB64Char '=' = false from by decide]

lemma is_base64_encode64 (bs : List Nat) (hb : ∀ b ∈ bs, b < 256)
    (hlen : 15 ≤ bs.length) : is_base64 (encode64 bs) = true := by
  unfold is_base64
  have hl := encode64_length bs
  rw [if_neg (by omega : ¬((encode64 bs).length < 20))]
  rw [b64re_ok_encode64 bs hb]
  simp only [Bool.not_true, Bool.false_eq_true, if_false, ite_false]
  rw [decode64_encode64 bs hb]
  simp
  omega

lemma scriptSearch_cons_nonquote (c : Char) (rest : List Char)
    (hc : quoteChar c = false) : scriptSearch (c :: rest) = scriptSearch rest := by
  simp [scriptSearch, scriptMatchAt, hc]

lemma scriptSearch_append_nonquote (pre : List Char)
    (h : ∀ c ∈ pre, quoteChar c = false) (rest : List Char) :
    scriptSearch (pre ++ rest) = scriptSearch rest := by
  induction pre with
  | nil => rfl
  | cons c t ih =>
    rw [List.cons_append, scriptSearch_cons_nonquote c _ (h c (by simp))]
    exact ih (fun x hx => h x (by simp [hx]))

lemma takeWhile_b64_pad (main pad tail2 : List Char)
    (hmain : ∀ c ∈ main, isB64Char c = true)
    (hpad : pad = [] ∨ pad = ['='] ∨ pad = ['=', '=']) :
    (main ++ (pad ++ '"' :: tail2)).takeWhile isB64Char = main ∧
    (main ++ (pad ++ '"' :: tail2)).dropWhile isB64Char = pad ++ '"' :: tail2 := by
  rw [List.takeWhile_append_of_pos hmain, List.dropWhile_append_of_pos hmain]
  have hq : isB64Char '"' = false := by decide
  have hp : isB64Char '=' = false := by decide
  rcases hpad with h | h | h <;> subst h <;>
    simp [List.takeWhile_cons, List.dropWhile_cons, hq, hp]

lemma scriptMatchAt_quote (main pad tail2 : List Char)
    (hmain : ∀ c ∈ main, isB64Char c = true) (hlen : 20 ≤ main.length)
    (hpad : pad = [] ∨ pad = ['='] ∨ pad = ['=', '=']) :
    scriptMatchAt ('"' :: (main ++ (pad ++ '"' :: tail2))) = some (main ++ pad) := by
  obtain ⟨htake, hdrop⟩ := takeWhile_b64_pad main pad tail2 hmain hpad
  simp only [scriptMatchAt, show quoteChar '"' = true from by decide, if_true,
    htake, hdrop]
  rw [if_neg (by omega : ¬(main.length < 20))]
  rcases hpad with h | h | h <;> subst h <;>
    simp [tryPadQuote, quoteChar, List.take_succ_cons]

lemma extract_scriptEmbed (enc : List Char) (main pad : List Char)
    (hsplit : enc = main ++ pad)
    (hmain : ∀ c ∈ main, isB64Char c = true) (hlen : 20 ≤ main.length)
    (hpad : pad = [] ∨ pad = ['='] ∨ pad = ['=', '='])
    (hb64 : is_base64 enc = true) :
    extract_base64_content (scriptEmbed enc) = some enc := by
  unfold extract_base64_content scriptEmbed
  simp only [List.filterMap_nil, List.head?_nil, List.filterMap_cons]
  have hlist : ("var taskData = \"" ++ enc.asString ++ "\";").toList =
      "var taskData = ".toList ++ ('"' :: (main ++ (pad ++ '"' :: [';']))) := by
    show ("var taskData = \"" ++ enc.asString ++ "\";").data = _
    rw [String.data_append, String.data_append]
    show _ ++ enc ++ _ = _
    rw [hsplit]
    simp
  rw [hlist,
    scriptSearch_append_nonquote "var taskData = ".toList (by decide) _,
    show scriptSearch ('"' :: (main ++ (pad ++ '"' :: [';']))) =
      match scriptMatchAt ('"' :: (main ++ (pad ++ '"' :: [';']))) with
      | some g => some g
      | none => scriptSearch (main ++ (pad ++ '"' :: [';'])) from rfl,
    scriptMatchAt_quote main pad [';'] hmain hlen hpad]
  rw [← hsplit]
  simp [hb64]

lemma asString_data (l : List Char) : (List.asString l).data = l := rfl

lemma takeWhile_eq_self_of_all {p : Char → Bool} :
    ∀ cs : List Char, (∀ c ∈ cs, p c = true) → cs.takeWhile p = cs
  | [], _ => rfl
  | c :: t, h => by
    rw [List.takeWhile_cons_of_pos (by simp [h c (by simp)])]
    rw [takeWhile_eq_self_of_all t (fun x hx => h x (by simp [hx]))]

lemma extract_tagEmbed (enc : List Char) (hb64 : is_base64 enc = true)
    (hns : ∀ c ∈ enc, isPySpace c = false) :
    extract_base64_content (tagEmbed enc) = some enc := by
  unfold extract_base64_content tagEmbed
  simp [List.findSome?_cons, asString_data, pyStrip_of_no_space enc hns, hb64]

lemma extract_attrEmbed (enc : List Char) (hb64 : is_base64 enc = true) :
    extract_base64_content (attrEmbed enc) = some enc := by
  unfold extract_base64_content attrEmbed
  simp [List.findSome?_cons, asString_data, hb64,
    show is_base64 (pyStrip ("" : String).data) = false from by decide]

lemma tryPadBoundary_step (g : List Char) (k : Nat) :
    tryPadBoundary g [] (k + 1) = tryPadBoundary g [] k := by
  simp only [tryPadBoundary, List.take_nil]
  rw [if_neg (by simp [List.replicate_succ])]

lemma tryPadBoundary_end (g : List Char)
    (hg : isWordChar (g.getLastD ' ') = true) :
    tryPadBoundary g [] 2 = some (g, []) := by
  rw [show (2 : Nat) = 1 + 1 from rfl, tryPadBoundary_step,
    show (1 : Nat) = 0 + 1 from rfl, tryPadBoundary_step]
  simp only [tryPadBoundary, hg]
  simp

lemma bareTryLen_full (run : List Char) (n : Nat) (hn : n + 1 = run.length)
    (hlen : 40 ≤ run.length) (hg : isWordChar (run.getLastD ' ') = true) :
    bareTryLen run [] (n + 1) = some (run, []) := by
  simp only [bareTryLen]
  rw [if_neg (by omega : ¬(n + 1 < 40))]
  rw [hn, List.take_length, List.drop_length, List.nil_append]
  rw [tryPadBoundary_end run hg]

lemma bareMatchAt_full (c0 : Char) (rest : List Char)
    (hall : ∀ c ∈ (c0 :: rest), isB64Char c = true)
    (hlen : 40 ≤ (c0 :: rest).length)
    (hfirst : isWordChar c0 = true)
    (hlast : isWordChar ((c0 :: rest).getLastD ' ') = true) :
    bareMatchAt false (c0 :: rest) = some (c0 :: rest, []) := by
  simp only [bareMatchAt, hfirst]
  rw [if_pos (by simp)]
  rw [takeWhile_eq_self_of_all _ hall, dropWhile_eq_nil_of_all _ hall]
  rw [show (c0 :: rest).length = rest.length + 1 from rfl]
  exact bareTryLen_full (c0 :: rest) rest.length rfl (by simpa using hlen) hlast

lemma findall_bare_single (enc : List Char)
    (hmatch : bareMatchAt false enc = some (enc, [])) (henc : enc ≠ []) :
    findall_bare enc = [enc] := by
  cases enc with
  | nil => simp at henc
  | cons c0 rest =>
    show findallBareAux false ((c0 :: rest).length + 1) (c0 :: rest) = _
    rw [show (c0 :: rest).length + 1 = (rest.length + 1) + 1 from rfl]
    simp only [findallBareAux, hmatch]

lemma extract_rawEmbed (enc : List Char)
    (hfind : findall_bare enc = [enc]) (hb64 : is_base64 enc = true) :
    extract_base64_content (rawEmbed enc) = some enc := by
  unfold extract_base64_content rawEmbed
  simp only [List.filterMap_nil, List.head?_nil, List.toList_asString]
  rw [hfind]
  simp [hb64]

/-- C6 counterexample: for the instruction text `"hi"`, whose base64
encoding `aGk=` is shorter than `_is_base64`'s 20-character minimum,
embedding the encoding in a `pre` element and parsing does not recover
the text — payload discovery fails entirely. -/
theorem C6_counterexample :
    encode64 ("hi".toList.map Char.toNat) = "aGk=".toList ∧
    extract_decoded (tagEmbed "aGk=".toList) = none :=
  ⟨by decide, by decide⟩

/-- C6 amended: base64 round-trip through the four markup positions holds
for payloads the discovery heuristics accept: at least 15 bytes of text
(20 encoded characters) for the element-text, data-attribute and
script-literal positions, and for the bare-run position additionally a
byte count divisible by 3 (no `=` padding, which the trailing `\b` of the
raw-markup regex rejects), at least 30 bytes (40 encoded characters), and
word-character first and last encoded characters. -/
theorem C6_roundtrip (bs : List Nat) (hb : ∀ b ∈ bs, b < 256)
    (hlen : 15 ≤ bs.length) :
    extract_decoded (tagEmbed (encode64 bs)) = some bs ∧
    extract_decoded (attrEmbed (encode64 bs)) = some bs ∧
    extract_decoded (scriptEmbed (encode64 bs)) = some bs ∧
    (bs.length % 3 = 0 → 30 ≤ bs.length →
      isWordChar ((encode64 bs).headD ' ') = true →
      isWordChar ((encode64 bs).getLastD ' ') = true →
      extract_decoded (rawEmbed (encode64 bs)) = some bs) := by
  have hb64 := is_base64_encode64 bs hb hlen
  have hns := encode64_no_space bs hb
  have hrt := decode64_encode64 bs hb
  have hlenc := encode64_length bs
  obtain ⟨main, hmain, hdis⟩ := encode64_split bs hb
  refine ⟨?_, ?_, ?_, ?_⟩
  · unfold extract_decoded
    rw [extract_tagEmbed _ hb64 hns]
    exact hrt
  · unfold extract_decoded
    rw [extract_attrEmbed _ hb64]
    exact hrt
  · unfold extract_decoded
    rcases hdis with ⟨hm, he⟩ | ⟨hm, he⟩ | ⟨hm, he⟩
    · have h1 := congrArg List.length he
      simp only [List.length_append] at h1
      have hmlen : 20 ≤ main.length := by omega
      rw [extract_scriptEmbed (encode64 bs) main [] (by simpa using he) hmain
        hmlen (Or.inl rfl) hb64]
      exact hrt
    · have h1 := congrArg List.length he
      simp only [List.length_append, List.length_cons, List.length_nil] at h1
      have hmlen : 20 ≤ main.length := by omega
      rw [extract_scriptEmbed (encode64 bs) main ['=', '='] he hmain hmlen
        (Or.inr (Or.inr rfl)) hb64]
      exact hrt
    · have h1 := congrArg List.length he
      simp only [List.length_append, List.length_cons, List.length_nil] at h1
      have hmlen : 20 ≤ main.length := by omega
      rw [extract_scriptEmbed (encode64 bs) main ['='] he hmain hmlen
        (Or.inr (Or.inl rfl)) hb64]
      exact hrt
  · intro hmod h30 hhead hlastw
    unfold extract_decoded
    have he : encode64 bs = main := by
      rcases hdis with ⟨_, he⟩ | ⟨hm, _⟩ | ⟨hm, _⟩
      · simpa using he
      · omega
      · omega
    have hall : ∀ c ∈ encode64 bs, isB64Char c = true := by
      rw [he]; exact hmain
    have hlenc40 : 40 ≤ (encode64 bs).length := by rw [hlenc]; omega
    obtain ⟨c0, rest, hcr⟩ : ∃ c0 rest, encode64 bs = c0 :: rest := by
      cases hh : encode64 bs with
      | nil => rw [hh] at hlenc40; simp at hlenc40
      | cons a t => exact ⟨a, t, rfl⟩
    rw [hcr] at hall hlenc40 hlastw hhead
    have hfirst : isWordChar c0 = true := by simpa using hhead
    have hmatch : bareMatchAt false (encode64 bs) = some (encode64 bs, []) := by
      rw [hcr]
      exact bareMatchAt_full c0 rest hall hlenc40 hfirst hlastw
    have hfind := findall_bare_single (encode64 bs) hmatch (by rw [hcr]; simp)
    rw [extract_rawEmbed _ hfind hb64]
    exact hrt

/-- Witness for C6 at the 45-byte payload of repeated byte 66 (`"B"`),
whose encoding `QkJC…` is 60 unpadded alphanumeric characters: all four
positions round-trip. -/
theorem C6_witness :
    extract_decoded (tagEmbed (encode64 (List.replicate 45 66))) =
      some (List.replicate 45 66) ∧
    extract_decoded (attrEmbed (encode64 (List.replicate 45 66))) =
      some (List.replicate 45 66) ∧
    extract_decoded (scriptEmbed (encode64 (List.replicate 45 66))) =
      some (List.replicate 45 66) ∧
    extract_decoded (rawEmbed (encode64 (List.replicate 45 66))) =
      some (List.replicate 45 66) := by
  obtain ⟨h1, h2, h3, h4⟩ := C6_roundtrip (List.replicate 45 66)
    (by decide) (by decide)
  exact ⟨h1, h2, h3, h4 (by decide) (by decide) (by decide) (by decide)⟩
